import Mathlib

set_option maxRecDepth 100000

/-!
# Brontide (Noise XK transport) — verification of the record layer and cipher state

A shallow embedding of the `brontide` crate's `machine` module: the
`CipherState` AEAD wrapper with its 1000-operation key rotation, the
`SymmetricState` transcript, the `Machine` record layer
(`write_message` / `read_message`), the handshake act-one receive path, and
the second `CipherState` implementation in `machine/cipher_state.rs`.

Bytes are modelled as `List Nat` with values below 256; 32- and 64-bit
machine arithmetic is explicit `% 2^32` / `% 2^64`.  The external
`chacha20_poly1305_aead`, `sha2` and `hkdf` crates are embedded by their
RFC definitions (RFC 7539 ChaCha20-Poly1305, FIPS 180-4 SHA-256,
RFC 5869 HKDF), which is what those crates compute.
-/

deriving instance DecidableEq for Except

namespace Brontide

/-! ## Byte and word helpers -/

/-- Little-endian value of a byte list (first byte least significant);
each byte is truncated to 8 bits as in the `u8` source type. -/
def leNum (bs : List Nat) : Nat :=
  bs.foldr (fun b acc => b % 256 + 256 * acc) 0

/-- `len` little-endian bytes of `n` (truncating above `2^(8*len)`). -/
def natLE (len n : Nat) : List Nat :=
  (List.range len).map (fun i => n / 2 ^ (8 * i) % 256)

/-- Big-endian 16-bit encoding, as `byteorder::BigEndian::write_u16`. -/
def beBytes2 (n : Nat) : List Nat :=
  [n / 256 % 256, n % 256]

/-- Big-endian 16-bit read of the first two bytes, as
`byteorder::BigEndian::read_u16`. -/
def beRead16 (bs : List Nat) : Nat :=
  bs.getD 0 0 % 256 * 256 + bs.getD 1 0 % 256

/-- 32-bit left rotation (input assumed below `2^32`). -/
def rotl32 (x n : Nat) : Nat :=
  ((x <<< n) % 2 ^ 32) ||| (x >>> (32 - n))

/-- 32-bit right rotation (input assumed below `2^32`). -/
def rotr32 (x n : Nat) : Nat :=
  (x >>> n) ||| ((x <<< (32 - n)) % 2 ^ 32)

/-- Split a byte list into `k`-byte chunks.  The fuel argument (always
instantiated with the list length, which bounds the number of chunks)
makes the recursion structural so that the definition reduces inside the
kernel. -/
def chunksAux (k : Nat) : Nat → List Nat → List (List Nat)
  | 0, _ => []
  | _, [] => []
  | fuel + 1, l => l.take k :: chunksAux k fuel (l.drop k)

/-- Split a byte list into 16-byte chunks (Poly1305 block granularity). -/
def chunks16 (l : List Nat) : List (List Nat) :=
  chunksAux 16 l.length l

/-- Split a byte list into 64-byte chunks (SHA-256 block granularity). -/
def chunks64 (l : List Nat) : List (List Nat) :=
  chunksAux 64 l.length l

/-! ## SHA-256 (FIPS 180-4), as computed by the `sha2` crate -/

def sha256K : List Nat :=
  [1116352408, 1899447441, 3049323471, 3921009573, 961987163,
   1508970993, 2453635748, 2870763221, 3624381080, 310598401,
   607225278, 1426881987, 1925078388, 2162078206, 2614888103,
   3248222580, 3835390401, 4022224774, 264347078, 604807628,
   770255983, 1249150122, 1555081692, 1996064986, 2554220882,
   2821834349, 2952996808, 3210313671, 3336571891, 3584528711,
   113926993, 338241895, 666307205, 773529912, 1294757372,
   1396182291, 1695183700, 1986661051, 2177026350, 2456956037,
   2730485921, 2820302411, 3259730800, 3345764771, 3516065817,
   3600352804, 4094571909, 275423344, 430227734, 506948616,
   659060556, 883997877, 958139571, 1322822218, 1537002063,
   1747873779, 1955562222, 2024104815, 2227730452, 2361852424,
   2428436474, 2756734187, 3204031479, 3329325298]

def sha256InitH : List Nat :=
  [1779033703, 3144134277, 1013904242, 2773480762,
   1359893119, 2600822924, 528734635, 1541459225]

def bsig0 (x : Nat) : Nat := (rotr32 x 2) ^^^ (rotr32 x 13) ^^^ (rotr32 x 22)
def bsig1 (x : Nat) : Nat := (rotr32 x 6) ^^^ (rotr32 x 11) ^^^ (rotr32 x 25)
def ssig0 (x : Nat) : Nat := (rotr32 x 7) ^^^ (rotr32 x 18) ^^^ (x >>> 3)
def ssig1 (x : Nat) : Nat := (rotr32 x 17) ^^^ (rotr32 x 19) ^^^ (x >>> 10)

/-- Big-endian 32-bit word from four bytes. -/
def beWord (bs : List Nat) : Nat :=
  bs.foldl (fun acc b => acc * 256 + b % 256) 0

/-- Big-endian serialization of a 32-bit word. -/
def wordBE4 (w : Nat) : List Nat :=
  [w / 2 ^ 24 % 256, w / 2 ^ 16 % 256, w / 2 ^ 8 % 256, w % 256]

/-- Extend the running message schedule by one word. -/
def scheduleStep (w : List Nat) : List Nat :=
  w ++ [(ssig1 (w.getD (w.length - 2) 0) + w.getD (w.length - 7) 0 +
         ssig0 (w.getD (w.length - 15) 0) + w.getD (w.length - 16) 0) % 2 ^ 32]

/-- The 64-word message schedule of a 64-byte block. -/
def sha256Schedule (block : List Nat) : List Nat :=
  Nat.iterate scheduleStep 48
    ((List.range 16).map (fun i => beWord ((block.drop (4 * i)).take 4)))

/-- One round of the SHA-256 compression function on `[a,b,c,d,e,f,g,h]`. -/
def sha256Round (wt kt : Nat) (st : List Nat) : List Nat :=
  let a := st.getD 0 0; let b := st.getD 1 0; let c := st.getD 2 0
  let d := st.getD 3 0; let e := st.getD 4 0; let f := st.getD 5 0
  let g := st.getD 6 0; let h := st.getD 7 0
  let t1 := (h + bsig1 e + ((e &&& f) ^^^ ((2 ^ 32 - 1 - e) &&& g)) + kt + wt) % 2 ^ 32
  let t2 := (bsig0 a + ((a &&& b) ^^^ (a &&& c) ^^^ (b &&& c))) % 2 ^ 32
  [(t1 + t2) % 2 ^ 32, a, b, c, (d + t1) % 2 ^ 32, e, f, g]

/-- Compress one 64-byte block into the running hash state. -/
def sha256Compress (h block : List Nat) : List Nat :=
  let ws := sha256Schedule block
  let st := (List.range 64).foldl
    (fun st i => sha256Round (ws.getD i 0) (sha256K.getD i 0) st) h
  (List.range 8).map (fun i => (h.getD i 0 + st.getD i 0) % 2 ^ 32)

/-- SHA-256 padding: `0x80`, zeros, and the 64-bit big-endian bit length. -/
def sha256Pad (msg : List Nat) : List Nat :=
  msg ++ [0x80] ++ List.replicate ((64 - (msg.length + 9) % 64) % 64) 0 ++
    (natLE 8 (8 * msg.length)).reverse

/-- SHA-256 of a byte list, producing the 32 digest bytes. -/
def sha256 (msg : List Nat) : List Nat :=
  (((chunks64 (sha256Pad msg)).foldl sha256Compress sha256InitH).map wordBE4).flatten

/-! ## HMAC-SHA256 and HKDF (RFC 2104 / RFC 5869), as the `hkdf` crate -/

def hmacSha256 (key msg : List Nat) : List Nat :=
  let k0 := if key.length > 64 then sha256 key else key
  let kp := k0 ++ List.replicate (64 - k0.length) 0
  sha256 ((kp.map (fun b => b ^^^ 0x5c)) ++
    sha256 ((kp.map (fun b => b ^^^ 0x36)) ++ msg))

/-- `Hkdf::<Sha256>::extract(Some(salt), ikm).expand(&[], 64)`: HKDF
extract-then-expand with empty `info`, producing 64 output bytes. -/
def hkdf64 (salt ikm : List Nat) : List Nat :=
  let prk := hmacSha256 salt ikm
  let t1 := hmacSha256 prk [1]
  let t2 := hmacSha256 prk (t1 ++ [2])
  (t1 ++ t2).take 64

/-! ## ChaCha20 (RFC 7539), as the `chacha20_poly1305_aead` crate -/

/-- A ChaCha20 quarter round applied at state positions `a b c d`. -/
def qround (st : List Nat) (a b c d : Nat) : List Nat :=
  let va := st.getD a 0; let vb := st.getD b 0
  let vc := st.getD c 0; let vd := st.getD d 0
  let va := (va + vb) % 2 ^ 32
  let vd := rotl32 (vd ^^^ va) 16
  let vc := (vc + vd) % 2 ^ 32
  let vb := rotl32 (vb ^^^ vc) 12
  let va := (va + vb) % 2 ^ 32
  let vd := rotl32 (vd ^^^ va) 8
  let vc := (vc + vd) % 2 ^ 32
  let vb := rotl32 (vb ^^^ vc) 7
  (((st.set a va).set b vb).set c vc).set d vd

/-- One ChaCha20 double round (column round then diagonal round). -/
def doubleRound (st : List Nat) : List Nat :=
  let st := qround st 0 4 8 12
  let st := qround st 1 5 9 13
  let st := qround st 2 6 10 14
  let st := qround st 3 7 11 15
  let st := qround st 0 5 10 15
  let st := qround st 1 6 11 12
  let st := qround st 2 7 8 13
  qround st 3 4 9 14

/-- The initial ChaCha20 state: constants, 8 key words, counter, 3 nonce
words (all little-endian). -/
def chachaInit (key nonce : List Nat) (counter : Nat) : List Nat :=
  [0x61707865, 0x3320646e, 0x79622d32, 0x6b206574] ++
  (List.range 8).map (fun i => leNum ((key.drop (4 * i)).take 4)) ++
  [counter % 2 ^ 32] ++
  (List.range 3).map (fun i => leNum ((nonce.drop (4 * i)).take 4))

/-- The 64-byte ChaCha20 block for a given key, nonce and counter. -/
def chachaBlock (key nonce : List Nat) (counter : Nat) : List Nat :=
  let s0 := chachaInit key nonce counter
  let s := Nat.iterate doubleRound 10 s0
  (((List.range 16).map
      (fun i => (s.getD i 0 + s0.getD i 0) % 2 ^ 32)).map (natLE 4)).flatten

/-- `blocks` blocks of keystream, with the block counter starting at 1 as
in the RFC 7539 AEAD construction. -/
def chachaKeystream (key nonce : List Nat) (blocks : Nat) : List Nat :=
  ((List.range blocks).map (fun i => chachaBlock key nonce (1 + i))).flatten

/-- ChaCha20 encryption (XOR with the keystream); its own inverse. -/
def chachaEncrypt (key nonce pt : List Nat) : List Nat :=
  List.zipWith (fun a b => a ^^^ b) pt (chachaKeystream key nonce ((pt.length + 63) / 64))

/-! ## Poly1305 (RFC 7539) -/

def polyP : Nat := 2 ^ 130 - 5

def clampR (r : Nat) : Nat := r &&& 0x0ffffffc0ffffffc0ffffffc0fffffff

/-- The Poly1305 tag (16 bytes) of `msg` under the 32-byte one-time key. -/
def poly1305 (key msg : List Nat) : List Nat :=
  let r := clampR (leNum (key.take 16))
  let s := leNum ((key.drop 16).take 16)
  let h := (chunks16 msg).foldl
    (fun h c => ((h + leNum c + 2 ^ (8 * c.length)) * r) % polyP) 0
  natLE 16 ((h + s) % 2 ^ 128)

/-- Zero padding to the next 16-byte boundary. -/
def pad16 (l : List Nat) : List Nat :=
  List.replicate ((16 - l.length % 16) % 16) 0

/-- The byte string the RFC 7539 AEAD authenticates: associated data and
ciphertext, each zero-padded to 16 bytes, then their 64-bit LE lengths. -/
def macData (ad ct : List Nat) : List Nat :=
  ad ++ pad16 ad ++ ct ++ pad16 ct ++ natLE 8 ad.length ++ natLE 8 ct.length

/-- The AEAD tag-mismatch error (`chacha20_poly1305_aead::DecryptError`). -/
inductive DecryptErrorT
  | tagMismatch
deriving DecidableEq, Repr

/-- `chacha20_poly1305_aead::encrypt`: returns the ciphertext and the
16-byte Poly1305 tag. -/
def aeadEncrypt (key nonce ad pt : List Nat) : List Nat × List Nat :=
  let polyKey := (chachaBlock key nonce 0).take 32
  let ct := chachaEncrypt key nonce pt
  (ct, poly1305 polyKey (macData ad ct))

/-- `chacha20_poly1305_aead::decrypt`: verifies the Poly1305 tag,
returning the plaintext on success and `TagMismatch` otherwise. -/
def aeadDecrypt (key nonce ad ct tag : List Nat) : Except DecryptErrorT (List Nat) :=
  let polyKey := (chachaBlock key nonce 0).take 32
  if poly1305 polyKey (macData ad ct) = tag then .ok (chachaEncrypt key nonce ct)
  else .error .tagMismatch


/-! ## `CipherState` (src/brontide/src/machine/mod.rs) -/

/-- The AEAD state of one direction: counter nonce, symmetric key and the
rotation salt, as `struct CipherState` in `machine/mod.rs`. -/
structure CipherState where
  nonce : Nat
  secret_key : List Nat
  salt : List Nat
deriving DecidableEq, Repr

/-- `CipherState::empty()`: all-zero key and salt, nonce 0.  This is the
state of `send_cipher` and `recv_cipher` in a freshly constructed
`Machine` (before the handshake's `split`). -/
def CipherState.empty : CipherState :=
  ⟨0, List.replicate 32 0, List.replicate 32 0⟩

/-- The 12-byte AEAD nonce: four zero bytes then the 64-bit little-endian
counter (`LittleEndian::write_u64(&mut nonce[4..], self.nonce)`). -/
def encode_nonce (n : Nat) : List Nat :=
  List.replicate 4 0 ++ natLE 8 n

/-- `CipherState::initialize_key`: install a key and reset the nonce. -/
def CipherState.initialize_key (c : CipherState) (key : List Nat) : CipherState :=
  { c with secret_key := key, nonce := 0 }

/-- `CipherState::initialize_key_with_salt`: also set the rotation salt. -/
def CipherState.initialize_key_with_salt (c : CipherState) (salt key : List Nat) :
    CipherState :=
  ({ c with salt := salt }).initialize_key key

/-- `CipherState::rotate_key`: ratchet the key forward with
HKDF-SHA256(salt, key) expanded to 64 bytes; the first 32 bytes become the
new salt and the last 32 the new key (installed via `initialize_key`,
which resets the nonce to 0). -/
def CipherState.rotate_key (c : CipherState) : CipherState :=
  let okm := hkdf64 c.salt c.secret_key
  ({ c with salt := okm.take 32 }).initialize_key (okm.drop 32)

/-- The nonce advance shared by `encrypt` and `decrypt`:
`self.nonce += 1` (64-bit), then `rotate_key` when the counter reaches
`KEY_ROTATION_INTERVAL = 1000`. -/
def CipherState.advance (c : CipherState) : CipherState :=
  let n := (c.nonce + 1) % 2 ^ 64
  if n = 1000 then ({ c with nonce := n }).rotate_key
  else { c with nonce := n }

/-- `CipherState::encrypt`: AEAD-encrypt under the current nonce, then
advance the state.  Returns `((ciphertext, tag), new state)`. -/
def CipherState.encrypt (c : CipherState) (associated_data plain_text : List Nat) :
    (List Nat × List Nat) × CipherState :=
  (aeadEncrypt c.secret_key (encode_nonce c.nonce) associated_data plain_text,
   c.advance)

/-- `CipherState::decrypt`: AEAD-decrypt under the current nonce; the
state advances only after a successful tag check (the Rust `?` returns
before `self.nonce += 1` on failure). -/
def CipherState.decrypt (c : CipherState) (associated_data cipher_text tag : List Nat) :
    Except DecryptErrorT (List Nat) × CipherState :=
  match aeadDecrypt c.secret_key (encode_nonce c.nonce) associated_data cipher_text tag with
  | .ok pt => (.ok pt, c.advance)
  | .error e => (.error e, c)

/-! ## `SymmetricState` (src/brontide/src/machine/mod.rs) -/

/-- The handshake transcript state: inner cipher, chaining key `ck`,
temporary key and handshake digest `h`. -/
structure SymmetricState where
  cipher_state : CipherState
  chaining_key : List Nat
  temp_key : List Nat
  handshake_digest : List Nat
deriving DecidableEq, Repr

def SymmetricState.empty : SymmetricState :=
  ⟨CipherState.empty, List.replicate 32 0, List.replicate 32 0, List.replicate 32 0⟩

/-- `SymmetricState::mix_hash`: `h ← SHA256(h ‖ data)`. -/
def SymmetricState.mix_hash (ss : SymmetricState) (data : List Nat) : SymmetricState :=
  { ss with handshake_digest := sha256 (ss.handshake_digest ++ data) }

/-- `SymmetricState::mix_key`: HKDF ratchet of the chaining key; the new
temp key is installed into the inner cipher (resetting its nonce). -/
def SymmetricState.mix_key (ss : SymmetricState) (input : List Nat) : SymmetricState :=
  let okm := hkdf64 ss.chaining_key input
  { ss with
    chaining_key := okm.take 32
    temp_key := okm.drop 32
    cipher_state := ss.cipher_state.initialize_key (okm.drop 32) }

/-- `SymmetricState::encrypt_and_hash`: encrypt with `h` as AD, then mix
`ciphertext ‖ tag` into the transcript. -/
def SymmetricState.encrypt_and_hash (ss : SymmetricState) (plaintext : List Nat) :
    (List Nat × List Nat) × SymmetricState :=
  let ((ct, tag), cs) := ss.cipher_state.encrypt ss.handshake_digest plaintext
  ((ct, tag), ({ ss with cipher_state := cs }).mix_hash (ct ++ tag))

/-- `SymmetricState::decrypt_and_hash`: decrypt with `h` as AD; only on
success is `ciphertext ‖ tag` mixed into the transcript (the Rust `?`
returns before `mix_hash` on an authentication failure). -/
def SymmetricState.decrypt_and_hash (ss : SymmetricState) (ciphertext tag : List Nat) :
    Except DecryptErrorT (List Nat) × SymmetricState :=
  match ss.cipher_state.decrypt ss.handshake_digest ciphertext tag with
  | (.ok pt, cs) => (.ok pt, ({ ss with cipher_state := cs }).mix_hash (ciphertext ++ tag))
  | (.error e, cs) => (.error e, { ss with cipher_state := cs })

/-! ## `Machine` record layer (src/brontide/src/machine/mod.rs) -/

/-- `ERR_MAX_MESSAGE_LENGTH_EXCEEDED`, the message of the `panic!` in
`write_message`. -/
def errMaxMessageLength : String :=
  "the generated payload exceeds the max allowed message length of (2^16)-1"

/-- The observable outcome of `Machine::write_message` on an in-memory
writer: either `Ok(())` with the bytes written and the updated
`send_cipher`, or a Rust `panic!` (a process abort, not an `Err` return)
carrying the panic message.  No bytes are written and the cipher is
untouched on the abort path, because the length check precedes both. -/
inductive WriteOutcome
  | ok (send_cipher : CipherState) (bytes : List Nat)
  | processAbort (msg : String)
deriving DecidableEq, Repr

/-- `Machine::write_message`: abort if the payload exceeds `u16::MAX`;
otherwise AEAD-encrypt the big-endian 16-bit length (empty AD), then the
payload (empty AD), emitting `len_ct ‖ len_tag ‖ msg_ct ‖ msg_tag`. -/
def Machine.write_message (send_cipher : CipherState) (p : List Nat) : WriteOutcome :=
  if p.length > 65535 then .processAbort errMaxMessageLength
  else
    let full_length := p.length % 65536
    let pkt_len := beBytes2 full_length
    let r1 := send_cipher.encrypt [] pkt_len
    let r2 := r1.2.encrypt [] p
    .ok r2.2 (r1.1.1 ++ r1.1.2 ++ r2.1.1 ++ r2.1.2)

/-- Errors surfaced by `Machine::read_message`: an I/O error from
`read_exact` on a short stream, or the AEAD authentication failure. -/
inductive ReadErrorT
  | ioShort
  | auth
deriving DecidableEq, Repr

/-- `Machine::read_message` over a byte-list stream: read the 18-byte
header, decrypt+auth the 2-byte length with `recv_cipher` (empty AD),
read `len + 16` more bytes, decrypt+auth the body (empty AD).  Returns
the result (plaintext and unconsumed stream on success) together with
the `recv_cipher` state after the call — including the state as mutated
by a successful header decrypt when the body then fails. -/
def Machine.read_message (recv_cipher : CipherState) (stream : List Nat) :
    Except ReadErrorT (List Nat × List Nat) × CipherState :=
  if stream.length < 18 then (.error .ioShort, recv_cipher)
  else
    let hdr := stream.take 18
    let rest := stream.drop 18
    let d1 := recv_cipher.decrypt [] (hdr.take 2) (hdr.drop 2)
    match d1.1 with
    | .error _ => (.error .auth, d1.2)
    | .ok pkt_len_bytes =>
      let pkt_len := beRead16 pkt_len_bytes + 16
      if rest.length < pkt_len then (.error .ioShort, d1.2)
      else
        let body := rest.take pkt_len
        let d2 := d1.2.decrypt [] (body.take (pkt_len - 16)) (body.drop (pkt_len - 16))
        match d2.1 with
        | .error _ => (.error .auth, d2.2)
        | .ok plaintext => (.ok (plaintext, rest.drop pkt_len), d2.2)

/-- `Machine::split`: derive the two record-layer ciphers from the final
chaining key — `okm = HKDF-SHA256(salt=ck, ikm=∅)` expanded to 64 bytes;
the initiator sends with `okm[0..32]` and receives with `okm[32..64]`,
the responder the opposite; both ciphers get salt `ck` and nonce 0 via
`initialize_key_with_salt`.  Returns `(send_cipher, recv_cipher)`. -/
def Machine.split (initiator : Bool) (chaining_key : List Nat) :
    CipherState × CipherState :=
  let okm := hkdf64 chaining_key []
  if initiator then
    (CipherState.empty.initialize_key_with_salt chaining_key (okm.take 32),
     CipherState.empty.initialize_key_with_salt chaining_key (okm.drop 32))
  else
    (CipherState.empty.initialize_key_with_salt chaining_key (okm.drop 32),
     CipherState.empty.initialize_key_with_salt chaining_key (okm.take 32))

/-! ## Handshake act one (responder side) -/

/-- The handshake error taxonomy of `HandshakeError` in `machine/mod.rs`.
`unknownHandshakeVersion` carries the offending version byte (the source
formats it into the error string). -/
inductive HandshakeErrorT
  | ioError
  | cryptoError
  | authError
  | unknownHandshakeVersion (version_byte : Nat)
deriving DecidableEq, Repr

/-- The 50-byte act-one packet (`1 version ‖ 33 key ‖ 16 tag`). -/
structure ActOne where
  bytes : List Nat
deriving DecidableEq, Repr

/-- `ActOne::read`: `read_exact` of 50 bytes from the stream; returns the
packet and the unconsumed remainder. -/
def ActOne.read (stream : List Nat) : Except HandshakeErrorT (ActOne × List Nat) :=
  if stream.length < 50 then .error .ioError
  else .ok (⟨stream.take 50⟩, stream.drop 50)

/-- `ActOne::key()`: the raw 33 bytes handed to `PublicKey::from_slice`. -/
def ActOne.keyBytes (a : ActOne) : List Nat :=
  (a.bytes.drop 1).take 33

/-- `ActOne::tag()`: the trailing 16 bytes. -/
def ActOne.tagBytes (a : ActOne) : List Nat :=
  a.bytes.drop 34

/-- `Machine::recv_act_one`, parameterized over the secp256k1 operations
of the external crate: `parse_key` embeds `PublicKey::from_slice`,
`serialize` the compressed-point serialization, and `ecdh` the
SHA-wrapped ECDH against the responder's static key.  The version check
comes first; an unknown version byte returns before any of these run. -/
def recv_act_one {α : Type} (parse_key : List Nat → Except Unit α)
    (serialize : α → List Nat) (ecdh : α → Except Unit (List Nat))
    (ss : SymmetricState) (act_one : ActOne) :
    Except HandshakeErrorT (SymmetricState × α) :=
  if act_one.bytes.getD 0 0 ≠ 0 then
    .error (.unknownHandshakeVersion (act_one.bytes.getD 0 0))
  else
    match parse_key act_one.keyBytes with
    | .error _ => .error .cryptoError
    | .ok remote_ephemeral =>
      let ss := ss.mix_hash (serialize remote_ephemeral)
      match ecdh remote_ephemeral with
      | .error _ => .error .cryptoError
      | .ok s =>
        let ss := ss.mix_key s
        match ss.decrypt_and_hash [] act_one.tagBytes with
        | (.error _, _) => .error .authError
        | (.ok _, ss) => .ok (ss, remote_ephemeral)

/-- The responder's first handshake step as driven by
`Machine::handshake`: `self.recv_act_one(ActOne::read(remote)?)?`,
returning the result together with the unconsumed stream. -/
def responder_act_one_step {α : Type} (parse_key : List Nat → Except Unit α)
    (serialize : α → List Nat) (ecdh : α → Except Unit (List Nat))
    (ss : SymmetricState) (stream : List Nat) :
    Except HandshakeErrorT (SymmetricState × α) × List Nat :=
  match ActOne.read stream with
  | .error e => (.error e, stream)
  | .ok (a, rest) => (recv_act_one parse_key serialize ecdh ss a, rest)

/-! ## The second `CipherState` (src/brontide/src/machine/cipher_state.rs) -/

/-- `struct CipherState` of `machine/cipher_state.rs` — the public
re-implementation, embedded independently of the one in `mod.rs`. -/
structure CipherStateB where
  nonce : Nat
  secret_key : List Nat
  salt : List Nat
deriving DecidableEq, Repr

/-- `CipherState::new(salt, key)`: nonce 0. -/
def CipherStateB.new (salt key : List Nat) : CipherStateB :=
  ⟨0, key, salt⟩

/-- The nonce bytes of `cipher_state.rs` (same `LittleEndian::write_u64`
into bytes 4..12 of a zeroed 12-byte array). -/
def encode_nonceB (n : Nat) : List Nat :=
  List.replicate 4 0 ++ natLE 8 n

/-- `CipherState::next`: increment the nonce; at
`KEY_ROTATION_INTERVAL = 1000`, ratchet salt and key through
HKDF-SHA256 and reset the nonce to 0. -/
def CipherStateB.next (c : CipherStateB) : CipherStateB :=
  let n := (c.nonce + 1) % 2 ^ 64
  if n = 1000 then
    let okm := hkdf64 c.salt c.secret_key
    ⟨0, okm.drop 32, okm.take 32⟩
  else { c with nonce := n }

/-- `CipherState::encrypt` of `cipher_state.rs`. -/
def CipherStateB.encrypt (c : CipherStateB) (associated_data plain_text : List Nat) :
    (List Nat × List Nat) × CipherStateB :=
  (aeadEncrypt c.secret_key (encode_nonceB c.nonce) associated_data plain_text,
   c.next)

/-- `CipherState::decrypt` of `cipher_state.rs` (`.map(|t| { self.next(); t })`
advances the state only on success). -/
def CipherStateB.decrypt (c : CipherStateB) (associated_data cipher_text tag : List Nat) :
    Except DecryptErrorT (List Nat) × CipherStateB :=
  match aeadDecrypt c.secret_key (encode_nonceB c.nonce) associated_data cipher_text tag with
  | .ok pt => (.ok pt, c.next)
  | .error e => (.error e, c)

/-- An abstract client script against a `CipherState`: the operations the
two implementations both expose. -/
inductive StreamOp
  | enc (ad pt : List Nat)
  | dec (ad ct tag : List Nat)
deriving DecidableEq, Repr

/-- The observable result of one `CipherState` operation. -/
inductive OutEvent
  | encOut (ct tag : List Nat)
  | decOk (pt : List Nat)
  | decFail
deriving DecidableEq, Repr

/-- Run a script against the `mod.rs` implementation. -/
def runA : CipherState → List StreamOp → List OutEvent × CipherState
  | c, [] => ([], c)
  | c, .enc ad pt :: ops =>
    let r := c.encrypt ad pt
    (.encOut r.1.1 r.1.2 :: (runA r.2 ops).1, (runA r.2 ops).2)
  | c, .dec ad ct tag :: ops =>
    let r := c.decrypt ad ct tag
    ((match r.1 with | .ok pt => .decOk pt | .error _ => .decFail) :: (runA r.2 ops).1,
     (runA r.2 ops).2)

/-- Run a script against the `cipher_state.rs` implementation. -/
def runB : CipherStateB → List StreamOp → List OutEvent × CipherStateB
  | c, [] => ([], c)
  | c, .enc ad pt :: ops =>
    let r := c.encrypt ad pt
    (.encOut r.1.1 r.1.2 :: (runB r.2 ops).1, (runB r.2 ops).2)
  | c, .dec ad ct tag :: ops =>
    let r := c.decrypt ad ct tag
    ((match r.1 with | .ok pt => .decOk pt | .error _ => .decFail) :: (runB r.2 ops).1,
     (runB r.2 ops).2)

/-- The field-for-field correspondence between the two structures. -/
def toB (c : CipherState) : CipherStateB :=
  ⟨c.nonce, c.secret_key, c.salt⟩

/-! ## Helper lemmas -/

theorem natLE_length (len n : Nat) : (natLE len n).length = len := by
  simp [natLE]

theorem beBytes2_length (n : Nat) : (beBytes2 n).length = 2 := rfl

theorem poly1305_length (key msg : List Nat) : (poly1305 key msg).length = 16 := by
  simp [poly1305, natLE_length]

theorem chachaBlock_length (key nonce : List Nat) (counter : Nat) :
    (chachaBlock key nonce counter).length = 64 := by
  simp [chachaBlock, List.length_flatten, List.map_map, Function.comp_def, natLE_length]

theorem chachaKeystream_length (key nonce : List Nat) (blocks : Nat) :
    (chachaKeystream key nonce blocks).length = blocks * 64 := by
  simp [chachaKeystream, List.length_flatten, List.map_map, Function.comp_def,
    chachaBlock_length]

theorem chachaEncrypt_length (key nonce pt : List Nat) :
    (chachaEncrypt key nonce pt).length = pt.length := by
  simp only [chachaEncrypt, List.length_zipWith, chachaKeystream_length]
  omega

theorem zipWith_xor_cancel (pt : List Nat) : ∀ ks : List Nat, pt.length ≤ ks.length →
    List.zipWith (fun a b => a ^^^ b) (List.zipWith (fun a b => a ^^^ b) pt ks) ks = pt := by
  induction pt with
  | nil => intro ks h; simp
  | cons a t ih =>
    intro ks h
    cases ks with
    | nil => simp at h
    | cons b u =>
      simp only [List.zipWith_cons_cons, Nat.xor_cancel_right, List.cons.injEq]
      exact ⟨trivial, ih u (by simpa using h)⟩

/-- XOR with the same keystream twice restores the plaintext. -/
theorem chachaEncrypt_involutive (key nonce pt : List Nat) :
    chachaEncrypt key nonce (chachaEncrypt key nonce pt) = pt := by
  have hlen := chachaEncrypt_length key nonce pt
  conv_lhs => rw [chachaEncrypt, hlen]
  rw [chachaEncrypt]
  exact zipWith_xor_cancel pt _ (by rw [chachaKeystream_length]; omega)

theorem aeadEncrypt_ct_length (key nonce ad pt : List Nat) :
    (aeadEncrypt key nonce ad pt).1.length = pt.length := by
  simp [aeadEncrypt, chachaEncrypt_length]

theorem aeadEncrypt_tag_length (key nonce ad pt : List Nat) :
    (aeadEncrypt key nonce ad pt).2.length = 16 := by
  simp [aeadEncrypt, poly1305_length]

/-- AEAD decryption of a genuine ciphertext/tag pair succeeds and returns
the plaintext. -/
theorem aeadDecrypt_aeadEncrypt (key nonce ad pt : List Nat) :
    aeadDecrypt key nonce ad (aeadEncrypt key nonce ad pt).1
      (aeadEncrypt key nonce ad pt).2 = .ok pt := by
  simp [aeadEncrypt, aeadDecrypt, chachaEncrypt_involutive]

theorem CipherState.encrypt_ct_length (c : CipherState) (ad pt : List Nat) :
    (c.encrypt ad pt).1.1.length = pt.length := by
  simp [CipherState.encrypt, aeadEncrypt_ct_length]

theorem CipherState.encrypt_tag_length (c : CipherState) (ad pt : List Nat) :
    (c.encrypt ad pt).1.2.length = 16 := by
  simp [CipherState.encrypt, aeadEncrypt_tag_length]

theorem CipherState.encrypt_state (c : CipherState) (ad pt : List Nat) :
    (c.encrypt ad pt).2 = c.advance := rfl

/-- Decrypting what a matching state encrypted succeeds, returns the
plaintext, and advances the state the same way the encryption side did. -/
theorem CipherState.decrypt_encrypt (c : CipherState) (ad pt : List Nat) :
    c.decrypt ad (c.encrypt ad pt).1.1 (c.encrypt ad pt).1.2 = (.ok pt, c.advance) := by
  simp [CipherState.encrypt, CipherState.decrypt, aeadDecrypt_aeadEncrypt]

theorem beRead16_beBytes2 (n : Nat) (h : n ≤ 65535) : beRead16 (beBytes2 n) = n := by
  simp [beRead16, beBytes2]
  omega

/-- A failed decryption leaves the cipher state untouched. -/
theorem CipherState.decrypt_error_state (c : CipherState) (ad ct tag : List Nat)
    (e : DecryptErrorT) (h : (c.decrypt ad ct tag).1 = .error e) :
    (c.decrypt ad ct tag).2 = c := by
  unfold CipherState.decrypt at *
  cases haead : aeadDecrypt c.secret_key (encode_nonce c.nonce) ad ct tag <;>
    simp [haead] at h ⊢

/-- A successful decryption advances the cipher state. -/
theorem CipherState.decrypt_ok_state (c : CipherState) (ad ct tag pt : List Nat)
    (h : (c.decrypt ad ct tag).1 = .ok pt) :
    (c.decrypt ad ct tag).2 = c.advance := by
  unfold CipherState.decrypt at *
  cases haead : aeadDecrypt c.secret_key (encode_nonce c.nonce) ad ct tag <;>
    simp [haead] at h ⊢

/-- The nonce after an advance: increment modulo `2^64`, reset to 0 at the
rotation interval. -/
theorem CipherState.advance_nonce (c : CipherState) :
    c.advance.nonce = if (c.nonce + 1) % 2 ^ 64 = 1000 then 0
      else (c.nonce + 1) % 2 ^ 64 := by
  unfold CipherState.advance CipherState.rotate_key CipherState.initialize_key
  by_cases h : (c.nonce + 1) % 2 ^ 64 = 1000
  · rw [if_pos h, if_pos h]
  · rw [if_neg h, if_neg h]

/-- The rotation performed when the counter reaches 1000. -/
theorem CipherState.advance_rotates (c : CipherState) (h : (c.nonce + 1) % 2 ^ 64 = 1000) :
    c.advance = ⟨0, (hkdf64 c.salt c.secret_key).drop 32, (hkdf64 c.salt c.secret_key).take 32⟩ := by
  unfold CipherState.advance CipherState.rotate_key CipherState.initialize_key
  rw [if_pos h]

theorem CipherState.advance_no_rotate (c : CipherState) (h : (c.nonce + 1) % 2 ^ 64 ≠ 1000) :
    c.advance = { c with nonce := (c.nonce + 1) % 2 ^ 64 } := by
  unfold CipherState.advance
  rw [if_neg h]

/-- Starting from nonce 0, the nonce consumed by the `n`-th operation is
`n % 1000`. -/
theorem advance_iterate_nonce (c0 : CipherState) (h : c0.nonce = 0) (n : Nat) :
    (Nat.iterate CipherState.advance n c0).nonce = n % 1000 := by
  induction n with
  | zero => simpa using h
  | succ n ih =>
    rw [Function.iterate_succ_apply']
    have hlt : (Nat.iterate CipherState.advance n c0).nonce + 1 < 2 ^ 64 := by
      rw [ih]; have : n % 1000 < 1000 := Nat.mod_lt n (by norm_num)
      omega
    rw [CipherState.advance_nonce, Nat.mod_eq_of_lt hlt, ih]
    have hm : n % 1000 < 1000 := Nat.mod_lt n (by norm_num)
    by_cases hc : n % 1000 + 1 = 1000
    · rw [if_pos hc]; omega
    · rw [if_neg hc]; omega

/-- What `write_message` produces on an in-bounds payload: the
encrypted length header, its tag, the encrypted payload, its tag, with
the send cipher advanced twice. -/
theorem write_message_ok (c : CipherState) (p : List Nat) (h : p.length ≤ 65535) :
    Machine.write_message c p =
      .ok c.advance.advance
        ((c.encrypt [] (beBytes2 p.length)).1.1 ++ (c.encrypt [] (beBytes2 p.length)).1.2 ++
         (c.advance.encrypt [] p).1.1 ++ (c.advance.encrypt [] p).1.2) := by
  have hmod : p.length % 65536 = p.length := Nat.mod_eq_of_lt (by omega)
  simp only [Machine.write_message, if_neg (by omega : ¬ p.length > 65535), hmod]
  rfl

/-- `read_message` on a stream that starts with a 2-byte header
ciphertext, its tag, an `L`-byte body ciphertext and its tag, when both
decryptions succeed with matching lengths: returns the body plaintext
and the unconsumed remainder. -/
theorem read_message_of_parts (c c1 c2 : CipherState) (L : Nat) (hL : L ≤ 65535)
    (a b u v rest p : List Nat)
    (la : a.length = 2) (lb : b.length = 16) (lu : u.length = L) (lv : v.length = 16)
    (hd1 : c.decrypt [] a b = (.ok (beBytes2 L), c1))
    (hd2 : c1.decrypt [] u v = (.ok p, c2)) :
    Machine.read_message c ((a ++ b) ++ ((u ++ v) ++ rest)) = (.ok (p, rest), c2) := by
  have lab : (a ++ b).length = 18 := by rw [List.length_append, la, lb]
  have luv : (u ++ v).length = L + 16 := by rw [List.length_append, lu, lv]
  have hlen2 : ((u ++ v) ++ rest).length = L + 16 + rest.length := by
    rw [List.length_append, luv]
  have hsl : ((a ++ b) ++ ((u ++ v) ++ rest)).length = 18 + (L + 16 + rest.length) := by
    rw [List.length_append, lab, hlen2]
  rw [Machine.read_message, if_neg (by omega)]
  have e1 : ((a ++ b) ++ ((u ++ v) ++ rest)).take 18 = a ++ b := List.take_left' lab
  have e1' : ((a ++ b) ++ ((u ++ v) ++ rest)).drop 18 = (u ++ v) ++ rest :=
    List.drop_left' lab
  have e2 : (a ++ b).take 2 = a := List.take_left' la
  have e3 : (a ++ b).drop 2 = b := List.drop_left' la
  simp only [e1, e1', e2, e3, hd1]
  have e5 : beRead16 (beBytes2 L) + 16 = L + 16 := by
    rw [beRead16_beBytes2 L hL]
  simp only [e5]
  rw [if_neg (by omega)]
  have e6 : ((u ++ v) ++ rest).take (L + 16) = u ++ v := List.take_left' luv
  have e6' : ((u ++ v) ++ rest).drop (L + 16) = rest := List.drop_left' luv
  have e7 : L + 16 - 16 = L := by omega
  have e8 : (u ++ v).take L = u := List.take_left' lu
  have e9 : (u ++ v).drop L = v := List.drop_left' lu
  simp only [e6, e6', e7, e8, e9, hd2]

/-- Reading back a record written by a matching cipher state returns the
payload and the unconsumed stream, with the receive cipher advanced
twice. -/
theorem read_write_roundtrip (c : CipherState) (p rest : List Nat)
    (h : p.length ≤ 65535) :
    Machine.read_message c
      ((c.encrypt [] (beBytes2 p.length)).1.1 ++ (c.encrypt [] (beBytes2 p.length)).1.2 ++
       (c.advance.encrypt [] p).1.1 ++ (c.advance.encrypt [] p).1.2 ++ rest) =
      (.ok (p, rest), c.advance.advance) := by
  have hstream :
      (c.encrypt [] (beBytes2 p.length)).1.1 ++ (c.encrypt [] (beBytes2 p.length)).1.2 ++
        (c.advance.encrypt [] p).1.1 ++ (c.advance.encrypt [] p).1.2 ++ rest =
      ((c.encrypt [] (beBytes2 p.length)).1.1 ++ (c.encrypt [] (beBytes2 p.length)).1.2) ++
        (((c.advance.encrypt [] p).1.1 ++ (c.advance.encrypt [] p).1.2) ++ rest) := by
    simp [List.append_assoc]
  rw [hstream]
  exact read_message_of_parts c c.advance c.advance.advance p.length h _ _ _ _ rest p
    (by rw [CipherState.encrypt_ct_length, beBytes2_length])
    (CipherState.encrypt_tag_length ..)
    (CipherState.encrypt_ct_length ..)
    (CipherState.encrypt_tag_length ..)
    (CipherState.decrypt_encrypt c [] (beBytes2 p.length))
    (CipherState.decrypt_encrypt c.advance [] p)

/-- `ActOne.read` on a long-enough stream consumes exactly 50 bytes. -/
theorem ActOne.read_ok (stream : List Nat) (h : 50 ≤ stream.length) :
    ActOne.read stream = .ok (⟨stream.take 50⟩, stream.drop 50) := by
  unfold ActOne.read
  rw [if_neg (by omega)]

theorem getD_take_zero (stream : List Nat) (h : 0 < stream.length) :
    (stream.take 50).getD 0 0 = stream.getD 0 0 := by
  cases stream with
  | nil => simp at h
  | cons x t => simp [List.getD]

/-- The two nonce encodings coincide. -/
theorem encode_nonceB_eq (n : Nat) : encode_nonceB n = encode_nonce n := rfl

/-- The field correspondence commutes with the nonce advance of the two
implementations. -/
theorem toB_advance (c : CipherState) : toB c.advance = (toB c).next := by
  unfold toB CipherState.advance CipherStateB.next CipherState.rotate_key
    CipherState.initialize_key
  by_cases h : (c.nonce + 1) % 2 ^ 64 = 1000
  · rw [if_pos h, if_pos h]
  · rw [if_neg h, if_neg h]

theorem toB_encrypt (c : CipherState) (ad pt : List Nat) :
    (toB c).encrypt ad pt = ((c.encrypt ad pt).1, toB (c.encrypt ad pt).2) := by
  unfold CipherStateB.encrypt CipherState.encrypt
  rw [← toB_advance]
  rfl

theorem toB_decrypt (c : CipherState) (ad ct tag : List Nat) :
    (toB c).decrypt ad ct tag = ((c.decrypt ad ct tag).1, toB (c.decrypt ad ct tag).2) := by
  unfold CipherStateB.decrypt CipherState.decrypt
  have hsame : aeadDecrypt (toB c).secret_key (encode_nonceB (toB c).nonce) ad ct tag =
      aeadDecrypt c.secret_key (encode_nonce c.nonce) ad ct tag := rfl
  rw [hsame]
  cases aeadDecrypt c.secret_key (encode_nonce c.nonce) ad ct tag <;>
    simp [toB_advance]

/-- Any script of operations produces the same outputs and corresponding
final states on the two implementations. -/
theorem runA_eq_runB (c : CipherState) (ops : List StreamOp) :
    (runA c ops).1 = (runB (toB c) ops).1 ∧
    toB (runA c ops).2 = (runB (toB c) ops).2 := by
  induction ops generalizing c with
  | nil => simp [runA, runB]
  | cons op ops ih =>
    cases op with
    | enc ad pt =>
      simp only [runA, runB, toB_encrypt]
      exact ⟨by rw [(ih _).1], (ih _).2⟩
    | dec ad ct tag =>
      simp only [runA, runB, toB_decrypt]
      exact ⟨by rw [(ih _).1], (ih _).2⟩

/-! ## Concrete material shared by several claims -/

/-- The BOLT-8 example payload `"hello"`. -/
def payloadHello : List Nat := [104, 101, 108, 108, 111]

/-- The send cipher after writing `payloadHello` from a fresh state. -/
def helloSend : CipherState :=
  match Machine.write_message CipherState.empty payloadHello with
  | .ok c _ => c
  | .processAbort _ => CipherState.empty

/-- The wire record produced by writing `payloadHello` from a fresh state. -/
def helloRecord : List Nat :=
  match Machine.write_message CipherState.empty payloadHello with
  | .ok _ out => out
  | .processAbort _ => []

/-- Flip a single bit (`bit`) of byte `i` of a byte string. -/
def flipBitIn (i bit : Nat) (l : List Nat) : List Nat :=
  l.set i ((l.getD i 0) ^^^ 2 ^ bit)

/-! ## The claims -/

/-- C1, counterexample: on a Machine whose handshake has not run (both
ciphers in their `CipherState::empty()` state), `write_message` simply
succeeds — it does not fail with `NotInitialized` (no such error exists on
the record-layer paths). -/
theorem claim_C1_counterexample :
    Machine.write_message CipherState.empty payloadHello = .ok helloSend helloRecord := by
  decide

/-- C1, amended: `write_message` and `read_message` perform no readiness
check at all.  On any cipher state — including the zero-initialized state
of a Machine in the New state — `write_message` succeeds for every
in-bounds payload, and `read_message` can only return an I/O short-read
error, an AEAD authentication error, or a successfully decrypted record;
neither operation can report `NotInitialized`. -/
theorem claim_C1_no_readiness_check :
    (∀ (c : CipherState) (p : List Nat), p.length ≤ 65535 →
      ∃ c2 out, Machine.write_message c p = .ok c2 out) ∧
    (∀ (c : CipherState) (stream : List Nat),
      (Machine.read_message c stream).1 = .error .ioShort ∨
      (Machine.read_message c stream).1 = .error .auth ∨
      ∃ pr, (Machine.read_message c stream).1 = .ok pr) := by
  constructor
  · intro c p h
    exact ⟨_, _, write_message_ok c p h⟩
  · intro c stream
    rcases hr : (Machine.read_message c stream).1 with e | pr
    · cases e with
      | ioShort => exact Or.inl rfl
      | auth => exact Or.inr (Or.inl rfl)
    · exact Or.inr (Or.inr ⟨pr, rfl⟩)

/-- C1, witness for the amended claim at concrete inputs. -/
theorem claim_C1_witness :
    (payloadHello.length ≤ 65535 ∧
      ∃ c2 out, Machine.write_message CipherState.empty payloadHello = .ok c2 out) ∧
    ((Machine.read_message CipherState.empty []).1 = .error .ioShort ∨
      (Machine.read_message CipherState.empty []).1 = .error .auth ∨
      ∃ pr, (Machine.read_message CipherState.empty []).1 = .ok pr) :=
  ⟨⟨by decide, claim_C1_no_readiness_check.1 CipherState.empty payloadHello (by decide)⟩,
   claim_C1_no_readiness_check.2 CipherState.empty []⟩

/-- C2: a payload longer than 65535 bytes makes `write_message` execute
`panic!(ERR_MAX_MESSAGE_LENGTH_EXCEEDED)` — a process abort, not a
structured error return — before any byte is written and before the send
cipher is touched (the modelled abort outcome carries neither). -/
theorem claim_C2_overlength_is_panic (c : CipherState) (p : List Nat)
    (h : p.length > 65535) :
    Machine.write_message c p = .processAbort errMaxMessageLength := by
  rw [Machine.write_message, if_pos h]

/-- C2, witness: the 65536-byte payload aborts. -/
theorem claim_C2_witness :
    (List.replicate 65536 (0 : Nat)).length > 65535 ∧
    Machine.write_message CipherState.empty (List.replicate 65536 0) =
      .processAbort errMaxMessageLength :=
  ⟨by rw [List.length_replicate]; norm_num,
   claim_C2_overlength_is_panic _ _ (by rw [List.length_replicate]; norm_num)⟩

/-- C3, counterexample: flipping bit 0 of byte 18 (the first byte of the
encrypted body) of a well-formed record makes `read_message` fail with
`Auth` — but the receive cipher is *not* unchanged: the length header
still authenticated, so its nonce advanced. -/
theorem claim_C3_counterexample :
    Machine.write_message CipherState.empty payloadHello = .ok helloSend helloRecord ∧
    flipBitIn 18 0 helloRecord ≠ helloRecord ∧
    (Machine.read_message CipherState.empty (flipBitIn 18 0 helloRecord)).1 =
      .error .auth ∧
    (Machine.read_message CipherState.empty (flipBitIn 18 0 helloRecord)).2 ≠
      CipherState.empty := by
  refine ⟨by decide, by decide, by decide, by decide⟩

/-- C3, amended: whenever `read_message` fails with `Auth`, the receive
cipher is either unchanged (the corruption hit the 18-byte length header,
whose decryption failed first) or advanced by exactly one decrypt step
(the header authenticated and the corruption hit the body). -/
theorem claim_C3_auth_failure_state (c : CipherState) (stream : List Nat)
    (h : (Machine.read_message c stream).1 = .error .auth) :
    (Machine.read_message c stream).2 = c ∨
    (Machine.read_message c stream).2 = c.advance := by
  unfold Machine.read_message at h ⊢
  by_cases h18 : stream.length < 18
  · rw [if_pos h18] at h
    exact absurd h (by simp)
  · rw [if_neg h18] at h ⊢
    rcases hd1 : (c.decrypt [] ((stream.take 18).take 2) ((stream.take 18).drop 2)).1
      with e1 | plb
    · simp only [hd1]
      exact Or.inl (CipherState.decrypt_error_state _ _ _ _ _ hd1)
    · simp only [hd1] at h ⊢
      by_cases hsh : (stream.drop 18).length < beRead16 plb + 16
      · rw [if_pos hsh] at h
        exact absurd h (by simp)
      · rw [if_neg hsh] at h ⊢
        rcases hd2 : ((c.decrypt [] ((stream.take 18).take 2) ((stream.take 18).drop 2)).2.decrypt
            [] (((stream.drop 18).take (beRead16 plb + 16)).take (beRead16 plb + 16 - 16))
            (((stream.drop 18).take (beRead16 plb + 16)).drop (beRead16 plb + 16 - 16))).1
          with e2 | pt
        · simp only [hd2]
          right
          rw [CipherState.decrypt_error_state _ _ _ _ _ hd2]
          exact CipherState.decrypt_ok_state _ _ _ _ _ hd1
        · simp only [hd2] at h
          exact absurd h (by simp)

/-- C3, witness for the amended claim: a header bit flip fails with the
cipher unchanged. -/
theorem claim_C3_witness :
    (Machine.read_message CipherState.empty (flipBitIn 0 0 helloRecord)).1 =
      .error .auth ∧
    ((Machine.read_message CipherState.empty (flipBitIn 0 0 helloRecord)).2 =
        CipherState.empty ∨
     (Machine.read_message CipherState.empty (flipBitIn 0 0 helloRecord)).2 =
        CipherState.empty.advance) :=
  ⟨by decide, claim_C3_auth_failure_state _ _ (by decide)⟩

/-- C4: every encrypt advances the state; every successful decrypt
advances the state; the advance increments the 64-bit nonce and, exactly
when it reaches 1000, rotates (new salt = okm[0..32], new key =
okm[32..64] of HKDF-SHA256(salt, key) expanded to 64 bytes, nonce reset
to 0); and iterating from a fresh state the nonce consumed by the `n`-th
operation is `n % 1000`, hence always below 1000. -/
theorem claim_C4_nonce_lifecycle :
    (∀ (c : CipherState) (ad pt : List Nat), (c.encrypt ad pt).2 = c.advance) ∧
    (∀ (c : CipherState) (ad ct tag pt : List Nat),
      (c.decrypt ad ct tag).1 = .ok pt → (c.decrypt ad ct tag).2 = c.advance) ∧
    (∀ c : CipherState,
      c.advance.nonce = if (c.nonce + 1) % 2 ^ 64 = 1000 then 0
        else (c.nonce + 1) % 2 ^ 64) ∧
    (∀ c : CipherState, (c.nonce + 1) % 2 ^ 64 = 1000 →
      c.advance = ⟨0, (hkdf64 c.salt c.secret_key).drop 32,
        (hkdf64 c.salt c.secret_key).take 32⟩) ∧
    (∀ c0 : CipherState, c0.nonce = 0 → ∀ n : Nat,
      (Nat.iterate CipherState.advance n c0).nonce = n % 1000 ∧
      (Nat.iterate CipherState.advance n c0).nonce < 1000) :=
  ⟨fun c ad pt => CipherState.encrypt_state c ad pt,
   fun c ad ct tag pt h => CipherState.decrypt_ok_state c ad ct tag pt h,
   CipherState.advance_nonce,
   CipherState.advance_rotates,
   fun c0 h0 n => ⟨advance_iterate_nonce c0 h0 n, by
     rw [advance_iterate_nonce c0 h0 n]
     exact Nat.mod_lt n (by norm_num)⟩⟩

/-- C4, witness at concrete inputs: a successful decrypt advances the
state; the state with nonce 999 rotates on advance; iteration from the
fresh state follows `n % 1000`. -/
theorem claim_C4_witness :
    ((CipherState.empty.decrypt [] (CipherState.empty.encrypt [] []).1.1
        (CipherState.empty.encrypt [] []).1.2).1 = .ok [] ∧
     (CipherState.empty.decrypt [] (CipherState.empty.encrypt [] []).1.1
        (CipherState.empty.encrypt [] []).1.2).2 = CipherState.empty.advance) ∧
    (((999 : Nat) + 1) % 2 ^ 64 = 1000 ∧
     (CipherState.mk 999 (List.replicate 32 0) (List.replicate 32 0)).advance =
       ⟨0, (hkdf64 (List.replicate 32 0) (List.replicate 32 0)).drop 32,
         (hkdf64 (List.replicate 32 0) (List.replicate 32 0)).take 32⟩) ∧
    (CipherState.empty.nonce = 0 ∧
     (Nat.iterate CipherState.advance 5 CipherState.empty).nonce = 5 % 1000) :=
  ⟨⟨by rw [CipherState.decrypt_encrypt],
    claim_C4_nonce_lifecycle.2.1 _ _ _ _ _ (by rw [CipherState.decrypt_encrypt])⟩,
   ⟨by decide, claim_C4_nonce_lifecycle.2.2.2.1 _ (by decide)⟩,
   ⟨rfl, (claim_C4_nonce_lifecycle.2.2.2.2 _ rfl 5).1⟩⟩

/-- C5: tag-verification failure is atomic — a failed `CipherState`
decrypt leaves `k`, `salt` and `n` untouched, and a failed
`decrypt_and_hash` leaves the transcript hash `h` and the chaining key
`ck` untouched. -/
theorem claim_C5_failed_decrypt_atomic :
    (∀ (c : CipherState) (ad ct tag : List Nat) (e : DecryptErrorT),
      (c.decrypt ad ct tag).1 = .error e → (c.decrypt ad ct tag).2 = c) ∧
    (∀ (ss : SymmetricState) (ct tag : List Nat) (e : DecryptErrorT),
      (ss.decrypt_and_hash ct tag).1 = .error e →
        (ss.decrypt_and_hash ct tag).2.handshake_digest = ss.handshake_digest ∧
        (ss.decrypt_and_hash ct tag).2.chaining_key = ss.chaining_key) := by
  constructor
  · exact fun c ad ct tag e h => CipherState.decrypt_error_state c ad ct tag e h
  · intro ss ct tag e h
    unfold SymmetricState.decrypt_and_hash at h ⊢
    rcases hd : (ss.cipher_state.decrypt ss.handshake_digest ct tag).1 with e1 | pt
    · have hd' : ss.cipher_state.decrypt ss.handshake_digest ct tag =
          (.error e1, (ss.cipher_state.decrypt ss.handshake_digest ct tag).2) := by
        rw [← hd]
      rw [hd']
      exact ⟨rfl, rfl⟩
    · have hd' : ss.cipher_state.decrypt ss.handshake_digest ct tag =
          (.ok pt, (ss.cipher_state.decrypt ss.handshake_digest ct tag).2) := by
        rw [← hd]
      rw [hd'] at h
      exact absurd h (by simp)

/-- C5, witness: decrypting with an all-zero tag fails and leaves the
states untouched. -/
theorem claim_C5_witness :
    ((CipherState.empty.decrypt [] [] (List.replicate 16 0)).1 =
        .error .tagMismatch ∧
      (CipherState.empty.decrypt [] [] (List.replicate 16 0)).2 = CipherState.empty) ∧
    ((SymmetricState.empty.decrypt_and_hash [] (List.replicate 16 0)).1 =
        .error .tagMismatch ∧
      (SymmetricState.empty.decrypt_and_hash [] (List.replicate 16 0)).2.handshake_digest =
        SymmetricState.empty.handshake_digest ∧
      (SymmetricState.empty.decrypt_and_hash [] (List.replicate 16 0)).2.chaining_key =
        SymmetricState.empty.chaining_key) :=
  ⟨⟨by decide, claim_C5_failed_decrypt_atomic.1 CipherState.empty [] []
      (List.replicate 16 0) DecryptErrorT.tagMismatch (by decide)⟩,
   ⟨by decide, (claim_C5_failed_decrypt_atomic.2 SymmetricState.empty []
      (List.replicate 16 0) DecryptErrorT.tagMismatch (by decide)).1,
    (claim_C5_failed_decrypt_atomic.2 SymmetricState.empty []
      (List.replicate 16 0) DecryptErrorT.tagMismatch (by decide)).2⟩⟩

/-- C6: at split, both directions draw from
`okm = HKDF-SHA256(salt = ck, ikm = ∅)` expanded to 64 bytes; the
initiator sends with `okm[0..32]` and receives with `okm[32..64]`, the
responder assigns them the other way round; every cipher starts with
salt `ck` and nonce 0. -/
theorem claim_C6_split_assignment (ck : List Nat) :
    (Machine.split true ck).1 = ⟨0, (hkdf64 ck []).take 32, ck⟩ ∧
    (Machine.split true ck).2 = ⟨0, (hkdf64 ck []).drop 32, ck⟩ ∧
    (Machine.split false ck).1 = ⟨0, (hkdf64 ck []).drop 32, ck⟩ ∧
    (Machine.split false ck).2 = ⟨0, (hkdf64 ck []).take 32, ck⟩ ∧
    (Machine.split true ck).1 = (Machine.split false ck).2 ∧
    (Machine.split true ck).2 = (Machine.split false ck).1 :=
  ⟨rfl, rfl, rfl, rfl, rfl, rfl⟩

/-- C7, counterexample: a successful `write_message` of the 5-byte
payload emits 39 = 5 + 34 bytes, not 5 + 36: the frame is
`len_ct(2) ‖ len_tag(16) ‖ msg_ct(L) ‖ msg_tag(16)`, which totals
`L + 34`. -/
theorem claim_C7_counterexample :
    Machine.write_message CipherState.empty payloadHello = .ok helloSend helloRecord ∧
    helloRecord.length = 39 ∧
    payloadHello.length + 36 = 41 := by
  refine ⟨by decide, by decide, by decide⟩

/-- C7, amended: for `L ≤ 65535` a successful `write_message` emits
exactly `len_ct(2) ‖ len_tag(16) ‖ msg_ct(L) ‖ msg_tag(16)` — a total of
`L + 34` bytes (not `L + 36`) — where the header plaintext is the
big-endian 16-bit encoding of `L`, both AEAD calls use empty associated
data, and the send cipher advances by exactly two nonce increments. -/
theorem claim_C7_framing (c : CipherState) (p : List Nat) (h : p.length ≤ 65535) :
    Machine.write_message c p =
      .ok c.advance.advance
        ((c.encrypt [] (beBytes2 p.length)).1.1 ++ (c.encrypt [] (beBytes2 p.length)).1.2 ++
         (c.advance.encrypt [] p).1.1 ++ (c.advance.encrypt [] p).1.2) ∧
    (c.encrypt [] (beBytes2 p.length)).1.1.length = 2 ∧
    (c.encrypt [] (beBytes2 p.length)).1.2.length = 16 ∧
    (c.advance.encrypt [] p).1.1.length = p.length ∧
    (c.advance.encrypt [] p).1.2.length = 16 ∧
    ((c.encrypt [] (beBytes2 p.length)).1.1 ++ (c.encrypt [] (beBytes2 p.length)).1.2 ++
     (c.advance.encrypt [] p).1.1 ++ (c.advance.encrypt [] p).1.2).length =
      p.length + 34 := by
  refine ⟨write_message_ok c p h, ?_, CipherState.encrypt_tag_length .. ,
    CipherState.encrypt_ct_length .. , CipherState.encrypt_tag_length .. , ?_⟩
  · rw [CipherState.encrypt_ct_length, beBytes2_length]
  · simp only [List.length_append, CipherState.encrypt_ct_length,
      CipherState.encrypt_tag_length, beBytes2_length]
    omega

/-- C7, witness at the concrete 5-byte payload. -/
theorem claim_C7_witness :
    payloadHello.length ≤ 65535 ∧
    (Machine.write_message CipherState.empty payloadHello =
      .ok CipherState.empty.advance.advance
        ((CipherState.empty.encrypt [] (beBytes2 payloadHello.length)).1.1 ++
         (CipherState.empty.encrypt [] (beBytes2 payloadHello.length)).1.2 ++
         (CipherState.empty.advance.encrypt [] payloadHello).1.1 ++
         (CipherState.empty.advance.encrypt [] payloadHello).1.2) ∧
     (CipherState.empty.encrypt [] (beBytes2 payloadHello.length)).1.1.length = 2 ∧
     (CipherState.empty.encrypt [] (beBytes2 payloadHello.length)).1.2.length = 16 ∧
     (CipherState.empty.advance.encrypt [] payloadHello).1.1.length =
       payloadHello.length ∧
     (CipherState.empty.advance.encrypt [] payloadHello).1.2.length = 16 ∧
     ((CipherState.empty.encrypt [] (beBytes2 payloadHello.length)).1.1 ++
      (CipherState.empty.encrypt [] (beBytes2 payloadHello.length)).1.2 ++
      (CipherState.empty.advance.encrypt [] payloadHello).1.1 ++
      (CipherState.empty.advance.encrypt [] payloadHello).1.2).length =
       payloadHello.length + 34) :=
  ⟨by decide, claim_C7_framing CipherState.empty payloadHello (by decide)⟩

/-- C8: decrypting what a matching peer state (same `k`, `salt`, `n`)
encrypted returns the plaintext; and a full `write_message` followed by
`read_message` on a matching peer returns the original payload bytes and
the same post-state, for every payload of length 1 through 65535 and any
trailing stream content. -/
theorem claim_C8_roundtrip :
    (∀ (k salt : List Nat) (n : Nat) (ad pt : List Nat),
      (CipherState.mk n k salt).decrypt ad
        ((CipherState.mk n k salt).encrypt ad pt).1.1
        ((CipherState.mk n k salt).encrypt ad pt).1.2 =
        (.ok pt, (CipherState.mk n k salt).advance)) ∧
    (∀ (c : CipherState) (p rest : List Nat), 1 ≤ p.length → p.length ≤ 65535 →
      ∀ (c2 : CipherState) (out : List Nat),
        Machine.write_message c p = .ok c2 out →
        Machine.read_message c (out ++ rest) = (.ok (p, rest), c2)) := by
  constructor
  · intro k salt n ad pt
    exact CipherState.decrypt_encrypt _ ad pt
  · intro c p rest h1 h2 c2 out hw
    rw [write_message_ok c p h2] at hw
    cases hw
    exact read_write_roundtrip c p rest h2

/-- C8, witness: a 5-byte payload round-trips through matched fresh
states, with trailing stream bytes preserved. -/
theorem claim_C8_witness :
    ((CipherState.mk 0 (List.replicate 32 0) (List.replicate 32 0)).decrypt []
        ((CipherState.mk 0 (List.replicate 32 0) (List.replicate 32 0)).encrypt [] [1]).1.1
        ((CipherState.mk 0 (List.replicate 32 0) (List.replicate 32 0)).encrypt [] [1]).1.2 =
      (.ok [1], (CipherState.mk 0 (List.replicate 32 0) (List.replicate 32 0)).advance)) ∧
    (1 ≤ payloadHello.length ∧ payloadHello.length ≤ 65535 ∧
      Machine.write_message CipherState.empty payloadHello = .ok helloSend helloRecord ∧
      Machine.read_message CipherState.empty (helloRecord ++ [9, 9]) =
        (.ok (payloadHello, [9, 9]), helloSend)) :=
  ⟨claim_C8_roundtrip.1 _ _ _ [] [1],
   ⟨by decide, by decide, by decide,
    claim_C8_roundtrip.2 CipherState.empty payloadHello [9, 9] (by decide) (by decide)
      helloSend helloRecord (by decide)⟩⟩

/-- C9: a responder act-one stream whose version byte is nonzero fails
with the unknown-handshake-version error carrying that byte, after
exactly 50 bytes have been consumed; the result does not depend on the
key-parsing or ECDH operations (the theorem holds for *all* of them),
and no symmetric-state mutation is returned. -/
theorem claim_C9_version_check {α : Type} (parse_key : List Nat → Except Unit α)
    (serialize : α → List Nat) (ecdh : α → Except Unit (List Nat))
    (ss : SymmetricState) (stream : List Nat)
    (h50 : 50 ≤ stream.length) (hv : stream.getD 0 0 ≠ 0) :
    responder_act_one_step parse_key serialize ecdh ss stream =
      (.error (.unknownHandshakeVersion (stream.getD 0 0)), stream.drop 50) := by
  unfold responder_act_one_step
  rw [ActOne.read_ok stream h50]
  unfold recv_act_one
  have hb : (ActOne.mk (stream.take 50)).bytes.getD 0 0 = stream.getD 0 0 :=
    getD_take_zero stream (by omega)
  simp only [hb]
  rw [if_pos hv]

/-- C9, witness: a 50-byte act one starting with version byte 1. -/
theorem claim_C9_witness :
    (50 ≤ (1 :: List.replicate 49 (0 : Nat)).length ∧
      (1 :: List.replicate 49 (0 : Nat)).getD 0 0 ≠ 0) ∧
    responder_act_one_step (fun _ => Except.ok ()) (fun _ => ([] : List Nat))
      (fun _ => Except.ok []) SymmetricState.empty (1 :: List.replicate 49 0) =
      (.error (.unknownHandshakeVersion ((1 :: List.replicate 49 (0 : Nat)).getD 0 0)),
       (1 :: List.replicate 49 (0 : Nat)).drop 50) :=
  ⟨⟨by simp, by decide⟩,
   claim_C9_version_check _ _ _ SymmetricState.empty _ (by simp) (by decide)⟩

/-- C10: the two `CipherState` implementations are extensionally equal —
from the same salt, key and nonce 0, any script of encrypt and decrypt
calls produces the same ciphertexts, tags and decryption outcomes, and
field-for-field equal final states (including the HKDF rotation at nonce
1000, which both trigger identically). -/
theorem claim_C10_extensional_equality (salt key : List Nat) (ops : List StreamOp) :
    (runA (CipherState.empty.initialize_key_with_salt salt key) ops).1 =
      (runB (CipherStateB.new salt key) ops).1 ∧
    toB (runA (CipherState.empty.initialize_key_with_salt salt key) ops).2 =
      (runB (CipherStateB.new salt key) ops).2 := by
  have h0 : toB (CipherState.empty.initialize_key_with_salt salt key) =
      CipherStateB.new salt key := rfl
  rw [← h0]
  exact runA_eq_runB _ ops



end Brontide
